import Mathlib

/-!
Verification of the hate-speech detection fusion engine, the keyword
matcher, the misinformation oracle mapping, and the detection store of
the suirufastapi repository, as a shallow embedding in Lean 4.

Texts and keywords are modelled as lists of characters (`Str`), so that
Python's substring operator `in` becomes an executable scan over lists.
Component calls that may raise are modelled as `Except Unit` values.
Confidences are rationals; timestamps are integers (ISO-8601 strings
compare in timestamp order for the fixed format the code writes).
-/

/-- A text, as the character sequence of a Python `str`. -/
abbrev Str := List Char

/-- Python `s.lower()`, character by character. -/
def lowerStr (s : Str) : Str := s.map Char.toLower

/-- Does `needle` occur at the very start of `hay`?  (Auxiliary to `hasSub`.) -/
def leadMatch : Str → Str → Bool
  | [], _ => true
  | _ :: _, [] => false
  | a :: as, b :: bs => a == b && leadMatch as bs

/-- Python's `needle in hay` for strings: substring containment, scanning
every start position. -/
def hasSub (needle : Str) : Str → Bool
  | [] => needle.isEmpty
  | b :: bs => leadMatch needle (b :: bs) || hasSub needle bs

/-- `CameroonKeywordsDetector.detect_keywords`:
`[kw for kw in self.keywords if kw.lower() in text.lower()]`. -/
def detect_keywords (keywords : List Str) (text : Str) : List Str :=
  keywords.filter (fun kw => hasSub (lowerStr kw) (lowerStr text))

/-- `CameroonKeywordsDetector.load_keywords`: returns the parsed keyword
list on success and the empty set when opening or parsing raises. -/
def load_keywords (source : Except Unit (List Str)) : List Str :=
  match source with
  | .ok kws => kws
  | .error _ => []

/-- The `HateSpeechResult` dataclass. -/
structure HateSpeechResult where
  text : Str
  is_hate_speech : Bool
  confidence : ℚ
  detected_keywords : List Str
  category : String
  severity : String
  timestamp : Int
  explanation : String
  deriving DecidableEq

/-- The fused verdict built in the `try` block of
`CameroonHateSpeechDetector.detect_hate_speech`, from the keyword hits
`dk` and the classifier output `(pred, conf)`. -/
def fuse (dk : List Str) (pred : Nat) (conf : ℚ) (text : Str) (now : Int) :
    HateSpeechResult :=
  let is_hate : Bool := pred != 0
  { text := text
    is_hate_speech := is_hate || !dk.isEmpty
    confidence := if is_hate then conf else if !dk.isEmpty then 0.7 else 0
    detected_keywords := dk
    category :=
      if is_hate then "twitter_model" else if !dk.isEmpty then "keywords" else "none"
    severity :=
      if is_hate && !dk.isEmpty then "high"
      else if is_hate || !dk.isEmpty then "medium" else "none"
    timestamp := now
    explanation :=
      if is_hate then "Detected by Twitter-trained model."
      else if !dk.isEmpty then
        "Keyword(s) detected: " ++ String.intercalate ", " (dk.map String.mk)
      else "Clean" }

/-- The default clean result returned when `result is None` after the
`try` block. -/
def default_clean (text : Str) (now : Int) : HateSpeechResult :=
  { text := text
    is_hate_speech := false
    confidence := 0
    detected_keywords := []
    category := "none"
    severity := "none"
    timestamp := now
    explanation := "No result - default clean" }

/-- `CameroonHateSpeechDetector.detect_hate_speech`: run the keyword
detector, then the classifier; any exception from either leaves `result`
as `None`, and the default clean result is returned. -/
def detect_hate_speech (kwF : Str → Except Unit (List Str))
    (clsF : Str → Except Unit (Nat × ℚ)) (text : Str) (now : Int) :
    HateSpeechResult :=
  match kwF text with
  | .error _ => default_clean text now
  | .ok dk =>
    match clsF text with
    | .error _ => default_clean text now
    | .ok (pred, conf) => fuse dk pred conf text now

/-- `CameroonHateSpeechDetector.batch_detect`: loop over the texts,
appending each detection result. -/
def batch_detect (kwF : Str → Except Unit (List Str))
    (clsF : Str → Except Unit (Nat × ℚ)) (texts : List Str) (now : Int) :
    List HateSpeechResult :=
  texts.foldl (fun results text => results ++ [detect_hate_speech kwF clsF text now]) []

/-- C1: detect_hate_speech fuses the keyword and classifier signals
exactly per the branch table: no keywords and label 0 gives the clean
quadruple; keywords and label 0 gives (true, keywords, medium, 0.7);
no keywords and label 1 gives (true, twitter_model, medium, classifier
confidence); keywords and label 1 gives severity high with category
twitter_model and the classifier confidence. -/
theorem C1_branch_table (dk : List Str) (pred : Nat) (conf : ℚ) (text : Str)
    (now : Int) :
    (dk = [] → pred = 0 →
      (detect_hate_speech (fun _ => .ok dk) (fun _ => .ok (pred, conf)) text now).is_hate_speech = false ∧
      (detect_hate_speech (fun _ => .ok dk) (fun _ => .ok (pred, conf)) text now).category = "none" ∧
      (detect_hate_speech (fun _ => .ok dk) (fun _ => .ok (pred, conf)) text now).severity = "none" ∧
      (detect_hate_speech (fun _ => .ok dk) (fun _ => .ok (pred, conf)) text now).confidence = 0) ∧
    (dk ≠ [] → pred = 0 →
      (detect_hate_speech (fun _ => .ok dk) (fun _ => .ok (pred, conf)) text now).is_hate_speech = true ∧
      (detect_hate_speech (fun _ => .ok dk) (fun _ => .ok (pred, conf)) text now).category = "keywords" ∧
      (detect_hate_speech (fun _ => .ok dk) (fun _ => .ok (pred, conf)) text now).severity = "medium" ∧
      (detect_hate_speech (fun _ => .ok dk) (fun _ => .ok (pred, conf)) text now).confidence = 0.7) ∧
    (dk = [] → pred = 1 →
      (detect_hate_speech (fun _ => .ok dk) (fun _ => .ok (pred, conf)) text now).is_hate_speech = true ∧
      (detect_hate_speech (fun _ => .ok dk) (fun _ => .ok (pred, conf)) text now).category = "twitter_model" ∧
      (detect_hate_speech (fun _ => .ok dk) (fun _ => .ok (pred, conf)) text now).severity = "medium" ∧
      (detect_hate_speech (fun _ => .ok dk) (fun _ => .ok (pred, conf)) text now).confidence = conf) ∧
    (dk ≠ [] → pred = 1 →
      (detect_hate_speech (fun _ => .ok dk) (fun _ => .ok (pred, conf)) text now).is_hate_speech = true ∧
      (detect_hate_speech (fun _ => .ok dk) (fun _ => .ok (pred, conf)) text now).category = "twitter_model" ∧
      (detect_hate_speech (fun _ => .ok dk) (fun _ => .ok (pred, conf)) text now).severity = "high" ∧
      (detect_hate_speech (fun _ => .ok dk) (fun _ => .ok (pred, conf)) text now).confidence = conf) := by
  refine ⟨?_, ?_, ?_, ?_⟩ <;> intro h1 h2 <;> subst h2 <;>
    simp_all [detect_hate_speech, fuse, List.isEmpty_iff]

/-- Witness for C1 at concrete inputs: empty keyword hits, label 0. -/
theorem C1_branch_table_witness :
    (detect_hate_speech (fun _ => .ok []) (fun _ => .ok (0, 0.5)) [] 0).is_hate_speech = false ∧
    (detect_hate_speech (fun _ => .ok []) (fun _ => .ok (0, 0.5)) [] 0).category = "none" ∧
    (detect_hate_speech (fun _ => .ok []) (fun _ => .ok (0, 0.5)) [] 0).severity = "none" ∧
    (detect_hate_speech (fun _ => .ok []) (fun _ => .ok (0, 0.5)) [] 0).confidence = 0 :=
  (C1_branch_table [] 0 0.5 [] 0).1 rfl rfl

/-- C2 counterexample: the default clean result's explanation is the
capitalized "No result - default clean", not the claimed all-lowercase
"no result - default clean". -/
theorem C2_counterexample :
    (detect_hate_speech (fun _ => .error ()) (fun _ => .error ()) [] 0).explanation ≠
      "no result - default clean" := by
  decide

/-- C2 (amended): if the keyword detector or the classifier raises, the
exception is not propagated and the result is exactly the default clean
result, whose explanation is the literal "No result - default clean". -/
theorem C2_default_clean (kwF : Str → Except Unit (List Str))
    (clsF : Str → Except Unit (Nat × ℚ)) (text : Str) (now : Int)
    (h : kwF text = .error () ∨ clsF text = .error ()) :
    detect_hate_speech kwF clsF text now =
      { text := text
        is_hate_speech := false
        confidence := 0
        detected_keywords := []
        category := "none"
        severity := "none"
        timestamp := now
        explanation := "No result - default clean" } := by
  rcases h with h | h
  · simp [detect_hate_speech, h, default_clean]
  · unfold detect_hate_speech
    cases hkw : kwF text with
    | error e => simp [default_clean]
    | ok dk => simp [h, default_clean]

/-- Witness for C2: both components raising at a concrete input. -/
theorem C2_default_clean_witness :
    detect_hate_speech (fun _ => .error ()) (fun _ => .error ()) [] 0 =
      { text := []
        is_hate_speech := false
        confidence := 0
        detected_keywords := []
        category := "none"
        severity := "none"
        timestamp := 0
        explanation := "No result - default clean" } :=
  C2_default_clean (fun _ => .error ()) (fun _ => .error ()) [] 0 (Or.inl rfl)

/-- C3: every successfully fused result satisfies the data-model
invariant: is_hate_speech implies a category other than none; severity
high exactly when the classifier verdict is positive and a keyword
matched; severity medium exactly when exactly one signal is present;
severity none exactly when neither signal is present. -/
theorem C3_invariant (dk : List Str) (pred : Nat) (conf : ℚ) (text : Str)
    (now : Int) :
    ((detect_hate_speech (fun _ => .ok dk) (fun _ => .ok (pred, conf)) text now).is_hate_speech = true →
      (detect_hate_speech (fun _ => .ok dk) (fun _ => .ok (pred, conf)) text now).category ≠ "none") ∧
    ((detect_hate_speech (fun _ => .ok dk) (fun _ => .ok (pred, conf)) text now).severity = "high" ↔
      (pred ≠ 0 ∧ dk ≠ [])) ∧
    ((detect_hate_speech (fun _ => .ok dk) (fun _ => .ok (pred, conf)) text now).severity = "medium" ↔
      ((pred ≠ 0 ∧ dk = []) ∨ (pred = 0 ∧ dk ≠ []))) ∧
    ((detect_hate_speech (fun _ => .ok dk) (fun _ => .ok (pred, conf)) text now).severity = "none" ↔
      (pred = 0 ∧ dk = [])) := by
  by_cases hp : pred = 0 <;> by_cases hd : dk = [] <;>
    simp_all [detect_hate_speech, fuse, List.isEmpty_iff]

/-- Witness for C3 at a concrete input: one keyword hit, label 1. -/
theorem C3_invariant_witness :
    ((detect_hate_speech (fun _ => .ok [['a']]) (fun _ => .ok (1, 0.9)) [] 0).is_hate_speech = true →
      (detect_hate_speech (fun _ => .ok [['a']]) (fun _ => .ok (1, 0.9)) [] 0).category ≠ "none") ∧
    ((detect_hate_speech (fun _ => .ok [['a']]) (fun _ => .ok (1, 0.9)) [] 0).severity = "high" ↔
      ((1 : Nat) ≠ 0 ∧ ([['a']] : List Str) ≠ [])) ∧
    ((detect_hate_speech (fun _ => .ok [['a']]) (fun _ => .ok (1, 0.9)) [] 0).severity = "medium" ↔
      (((1 : Nat) ≠ 0 ∧ ([['a']] : List Str) = []) ∨ ((1 : Nat) = 0 ∧ ([['a']] : List Str) ≠ []))) ∧
    ((detect_hate_speech (fun _ => .ok [['a']]) (fun _ => .ok (1, 0.9)) [] 0).severity = "none" ↔
      ((1 : Nat) = 0 ∧ ([['a']] : List Str) = [])) :=
  C3_invariant [['a']] 1 0.9 [] 0

/-- Auxiliary: folding an append-accumulator over a list is map. -/
theorem foldl_append_eq_map {α β : Type} (f : α → β) (l : List α) (acc : List β) :
    l.foldl (fun results text => results ++ [f text]) acc = acc ++ l.map f := by
  induction l generalizing acc with
  | nil => simp
  | cons a t ih => simp [List.foldl_cons, ih]

/-- C4: batch_detect returns one result per input text, in input order,
each equal to detect_hate_speech on that text; detection of one text
cannot affect another's result. -/
theorem C4_batch_detect (kwF : Str → Except Unit (List Str))
    (clsF : Str → Except Unit (Nat × ℚ)) (texts : List Str) (now : Int) :
    batch_detect kwF clsF texts now =
      texts.map (fun text => detect_hate_speech kwF clsF text now) ∧
    (batch_detect kwF clsF texts now).length = texts.length := by
  have h := foldl_append_eq_map
    (fun text => detect_hate_speech kwF clsF text now) texts []
  constructor
  · simpa [batch_detect] using h
  · simp [batch_detect, h]

/-- `leadMatch n h` holds exactly when `h` starts with `n`. -/
theorem leadMatch_iff (n : Str) : ∀ h : Str, leadMatch n h = true ↔ ∃ t, h = n ++ t := by
  induction n with
  | nil => intro h; simp [leadMatch]
  | cons a as ih =>
    intro h
    cases h with
    | nil => simp [leadMatch]
    | cons b bs =>
      simp only [leadMatch, Bool.and_eq_true, beq_iff_eq, ih bs, List.cons_append,
        List.cons.injEq]
      constructor
      · rintro ⟨hab, t, ht⟩
        exact ⟨t, hab.symm, ht⟩
      · rintro ⟨t, hba, ht⟩
        exact ⟨hba.symm, t, ht⟩

/-- `hasSub n h` holds exactly when `n` occurs as a contiguous substring
of `h`, i.e. Python's `n in h`. -/
theorem hasSub_iff (n : Str) : ∀ h : Str, hasSub n h = true ↔ ∃ p t, h = p ++ n ++ t := by
  intro h
  induction h with
  | nil =>
    simp only [hasSub, List.isEmpty_iff]
    constructor
    · rintro rfl; exact ⟨[], [], rfl⟩
    · rintro ⟨p, t, ht⟩
      rcases List.append_eq_nil.mp ht.symm with ⟨h1, h2⟩
      exact (List.append_eq_nil.mp h1).2
  | cons b bs ih =>
    simp only [hasSub, Bool.or_eq_true, leadMatch_iff, ih]
    constructor
    · rintro (⟨t, ht⟩ | ⟨p, t, ht⟩)
      · exact ⟨[], t, by simp [ht]⟩
      · exact ⟨b :: p, t, by simp [ht]⟩
    · rintro ⟨p, t, ht⟩
      cases p with
      | nil => exact Or.inl ⟨t, by simpa using ht⟩
      | cons x p2 =>
        simp only [List.cons_append, List.cons.injEq] at ht
        exact Or.inr ⟨p2, t, ht.2⟩

/-- C8: the keyword matcher returns exactly the keywords whose lowercased
form is a substring of the lowercased text, keeping keyword order and
multiplicity, and returns the empty sequence for the empty keyword set. -/
theorem C8_keyword_matcher (keywords : List Str) (text : Str) :
    (∀ kw, kw ∈ detect_keywords keywords text ↔
      kw ∈ keywords ∧ ∃ p t, lowerStr text = p ++ lowerStr kw ++ t) ∧
    (detect_keywords keywords text).Sublist keywords ∧
    detect_keywords [] text = [] := by
  refine ⟨fun kw => ?_, List.filter_sublist keywords, rfl⟩
  rw [detect_keywords, List.mem_filter, hasSub_iff]

/-- The empty string is a substring of every text. -/
theorem hasSub_nil (h : Str) : hasSub [] h = true := by
  cases h <;> simp [hasSub, leadMatch]

/-- C9: when the keyword source is missing or malformed, load_keywords
falls back to the empty set and keyword matching returns no matches for
every text. -/
theorem C9_load_fallback (e : Unit) (text : Str) :
    load_keywords (.error e) = [] ∧
    detect_keywords (load_keywords (.error e)) text = [] := ⟨rfl, rfl⟩

/-- C10: if the loaded keyword set contains the empty string, every text
matches, so detect_hate_speech marks every text as hate speech with a
severity other than none; with classifier label 0 the category is
keywords, the severity medium and the confidence 0.7. -/
theorem C10_empty_keyword (keywords : List Str) (text : Str) (pred : Nat)
    (conf : ℚ) (now : Int) (h : ([] : Str) ∈ keywords) :
    (detect_hate_speech (fun t => .ok (detect_keywords keywords t))
      (fun _ => .ok (pred, conf)) text now).is_hate_speech = true ∧
    (detect_hate_speech (fun t => .ok (detect_keywords keywords t))
      (fun _ => .ok (pred, conf)) text now).severity ≠ "none" ∧
    (pred = 0 →
      (detect_hate_speech (fun t => .ok (detect_keywords keywords t))
        (fun _ => .ok (pred, conf)) text now).category = "keywords" ∧
      (detect_hate_speech (fun t => .ok (detect_keywords keywords t))
        (fun _ => .ok (pred, conf)) text now).severity = "medium" ∧
      (detect_hate_speech (fun t => .ok (detect_keywords keywords t))
        (fun _ => .ok (pred, conf)) text now).confidence = 0.7) := by
  have hdk : ([] : Str) ∈ detect_keywords keywords text :=
    List.mem_filter.mpr ⟨h, hasSub_nil (lowerStr text)⟩
  have hne : detect_keywords keywords text ≠ [] := List.ne_nil_of_mem hdk
  by_cases hp : pred = 0 <;>
    simp_all [detect_hate_speech, fuse, List.isEmpty_iff]

/-- Witness for C10: the singleton keyword set containing the empty
string, a benign text, classifier label 0. -/
theorem C10_empty_keyword_witness :
    (detect_hate_speech (fun t => .ok (detect_keywords [[]] t))
      (fun _ => .ok (0, 0)) ['h', 'i'] 0).is_hate_speech = true ∧
    (detect_hate_speech (fun t => .ok (detect_keywords [[]] t))
      (fun _ => .ok (0, 0)) ['h', 'i'] 0).severity ≠ "none" ∧
    ((0 : Nat) = 0 →
      (detect_hate_speech (fun t => .ok (detect_keywords [[]] t))
        (fun _ => .ok (0, 0)) ['h', 'i'] 0).category = "keywords" ∧
      (detect_hate_speech (fun t => .ok (detect_keywords [[]] t))
        (fun _ => .ok (0, 0)) ['h', 'i'] 0).severity = "medium" ∧
      (detect_hate_speech (fun t => .ok (detect_keywords [[]] t))
        (fun _ => .ok (0, 0)) ['h', 'i'] 0).confidence = 0.7) :=
  C10_empty_keyword [[]] ['h', 'i'] 0 0 0 (by decide)

/-- Python `s.strip()`: drop leading and trailing whitespace. -/
def stripStr (s : Str) : Str :=
  ((s.dropWhile Char.isWhitespace).reverse.dropWhile Char.isWhitespace).reverse

/-- A fact-check HTTP response: the status code, and the outcome of
extracting `choices[0].message.content` from the JSON body (the
extraction itself may raise). -/
structure OracleResponse where
  status_code : Nat
  content : Except Unit Str

/-- Python truthiness of an optional environment string: present and
nonempty. -/
def truthyEnv (o : Option String) : Bool :=
  match o with
  | some s => !(s == "")
  | none => false

/-- `MisinformationAnalyzer.predict`: with all four Azure settings
present, post the fact-check request and map the oracle's one-word
answer (stripped, lowercased); any exception, and any non-200 status,
falls through to the unconditional `("unverified", 0.0, "unknown")`. -/
def predict (key endp depl ver : Option String)
    (call : Except Unit OracleResponse) : String × ℚ × String :=
  if truthyEnv key && truthyEnv endp && truthyEnv depl && truthyEnv ver then
    match call with
    | .error _ => ("unverified", 0, "unknown")
    | .ok resp =>
      if resp.status_code = 200 then
        match resp.content with
        | .error _ => ("unverified", 0, "unknown")
        | .ok content =>
          let answer := lowerStr (stripStr content)
          if answer = "false".data then ("misinformation", 0.7, "medium")
          else if answer = "unverifiable".data then ("unverified", 0, "unknown")
          else ("no_misinformation", 0, "low")
      else ("unverified", 0, "unknown")
  else ("unverified", 0, "unknown")

/-- C5: predict maps a 200 answer of "false" to (misinformation, 0.7,
medium), "unverifiable" to (unverified, 0.0, unknown), and anything
else (including "true") to (no_misinformation, 0.0, low); a missing
configuration value, a raised or timed-out call, a failed body
extraction, or a non-200 status each yield (unverified, 0.0, unknown)
with no exception surfaced. -/
theorem C5_predict (key endp depl ver : Option String)
    (call : Except Unit OracleResponse) :
    ((truthyEnv key && truthyEnv endp && truthyEnv depl && truthyEnv ver) = true →
      ∀ status : Nat, ∀ content : Str,
        (call = .ok ⟨status, .ok content⟩ → status = 200 →
          lowerStr (stripStr content) = "false".data →
          predict key endp depl ver call = ("misinformation", 0.7, "medium")) ∧
        (call = .ok ⟨status, .ok content⟩ → status = 200 →
          lowerStr (stripStr content) = "unverifiable".data →
          predict key endp depl ver call = ("unverified", 0, "unknown")) ∧
        (call = .ok ⟨status, .ok content⟩ → status = 200 →
          lowerStr (stripStr content) ≠ "false".data →
          lowerStr (stripStr content) ≠ "unverifiable".data →
          predict key endp depl ver call = ("no_misinformation", 0, "low")) ∧
        (call = .ok ⟨status, .error ()⟩ →
          predict key endp depl ver call = ("unverified", 0, "unknown")) ∧
        (call = .ok ⟨status, .ok content⟩ → status ≠ 200 →
          predict key endp depl ver call = ("unverified", 0, "unknown"))) ∧
    (call = .error () → predict key endp depl ver call = ("unverified", 0, "unknown")) ∧
    ((key = none ∨ endp = none ∨ depl = none ∨ ver = none) →
      predict key endp depl ver call = ("unverified", 0, "unknown")) := by
  refine ⟨?_, ?_, ?_⟩
  · intro hcfg status content
    refine ⟨?_, ?_, ?_, ?_, ?_⟩
    · rintro rfl rfl hans
      simp [predict, hcfg, hans]
    · rintro rfl rfl hans
      simp [predict, hcfg, hans]
    · rintro rfl rfl hans1 hans2
      simp [predict, hcfg, hans1, hans2]
    · rintro rfl
      by_cases hs : status = 200 <;> simp [predict, hcfg, hs]
    · rintro rfl hs
      simp [predict, hcfg, hs]
  · rintro rfl
    by_cases hcfg : (truthyEnv key && truthyEnv endp && truthyEnv depl && truthyEnv ver) = true
    · simp [predict, hcfg]
    · simp [predict, hcfg]
  · intro habs
    have hcfg : (truthyEnv key && truthyEnv endp && truthyEnv depl && truthyEnv ver) = false := by
      rcases habs with h | h | h | h <;> subst h <;> simp [truthyEnv]
    simp [predict, hcfg]

/-- Witness for C5: all configuration present, status 200, answer
"false". -/
theorem C5_predict_witness :
    predict (some "k") (some "e") (some "d") (some "v")
      (.ok ⟨200, .ok "false".data⟩) = ("misinformation", 0.7, "medium") :=
  (((C5_predict (some "k") (some "e") (some "d") (some "v")
      (.ok ⟨200, .ok "false".data⟩)).1 (by decide) 200 "false".data).1
    rfl rfl (by decide))

/-- The metadata dict passed to `store_detection` (`user_id`,
`platform`, `post_id`, all optional). -/
structure Metadata where
  user_id : Option String
  platform : Option String
  post_id : Option String
  deriving DecidableEq

/-- A row of the `detections` table. -/
structure DetectionRecord where
  id : Nat
  text : Str
  is_hate_speech : Bool
  confidence : ℚ
  detected_keywords : List Str
  category : String
  severity : String
  explanation : String
  timestamp : Int
  user_id : Option String
  platform : Option String
  post_id : Option String
  deriving DecidableEq

/-- The row inserted by `DatabaseManager.store_detection`: the result's
fields flattened, the metadata values, and the autoincrement id. -/
def mkRecord (db : List DetectionRecord) (result : HateSpeechResult)
    (md : Metadata) : DetectionRecord :=
  { id := db.length + 1
    text := result.text
    is_hate_speech := result.is_hate_speech
    confidence := result.confidence
    detected_keywords := result.detected_keywords
    category := result.category
    severity := result.severity
    explanation := result.explanation
    timestamp := result.timestamp
    user_id := md.user_id
    platform := md.platform
    post_id := md.post_id }

/-- `DatabaseManager.store_detection`: INSERT appends one row. -/
def store_detection (result : HateSpeechResult) (md : Metadata)
    (db : List DetectionRecord) : List DetectionRecord :=
  db ++ [mkRecord db result md]

/-- The comparison behind `ORDER BY timestamp DESC`: `a` before `b`
when `a`'s timestamp is at least `b`'s. -/
def newestFirst (a b : DetectionRecord) : Prop := b.timestamp ≤ a.timestamp

instance : DecidableRel newestFirst := fun _ _ => Int.decLe _ _

instance : IsTotal DetectionRecord newestFirst :=
  ⟨fun a b => le_total b.timestamp a.timestamp⟩

instance : IsTrans DetectionRecord newestFirst :=
  ⟨fun _ _ _ h1 h2 => le_trans h2 h1⟩

/-- `DatabaseManager.get_recent_detections`: rows with
`timestamp > now - window`, with `is_hate_speech = 1` when `hate_only`,
ordered by timestamp descending. -/
def get_recent_detections (db : List DetectionRecord) (now : Int)
    (window : Int) (hate_only : Bool) : List DetectionRecord :=
  if hate_only then
    List.insertionSort newestFirst
      (db.filter (fun r => decide (now - window < r.timestamp) && r.is_hate_speech))
  else
    List.insertionSort newestFirst
      (db.filter (fun r => decide (now - window < r.timestamp)))

/-- C6: the record appended by store_detection is returned by
get_recent_detections with hate_only exactly when it is hate speech and
its timestamp is greater than now minus the window; without hate_only
the hate filter is dropped; the output is always ordered newest-first
by timestamp. -/
theorem C6_store_recent (db : List DetectionRecord) (result : HateSpeechResult)
    (md : Metadata) (now window : Int) :
    (mkRecord db result md ∈
        get_recent_detections (store_detection result md db) now window true ↔
      (result.is_hate_speech = true ∧ now - window < result.timestamp)) ∧
    (mkRecord db result md ∈
        get_recent_detections (store_detection result md db) now window false ↔
      now - window < result.timestamp) ∧
    (∀ ho : Bool,
      List.Sorted newestFirst
        (get_recent_detections (store_detection result md db) now window ho)) := by
  have hmem : mkRecord db result md ∈ store_detection result md db := by
    simp [store_detection]
  refine ⟨?_, ?_, ?_⟩
  · rw [get_recent_detections, if_pos rfl,
      (List.perm_insertionSort newestFirst _).mem_iff, List.mem_filter]
    simp only [hmem, true_and, Bool.and_eq_true, decide_eq_true_eq]
    show now - window < (mkRecord db result md).timestamp ∧
        (mkRecord db result md).is_hate_speech = true ↔ _
    rw [mkRecord]
    exact and_comm
  · rw [get_recent_detections, if_neg (by simp),
      (List.perm_insertionSort newestFirst _).mem_iff, List.mem_filter]
    simp only [hmem, true_and, decide_eq_true_eq]
    show now - window < (mkRecord db result md).timestamp ↔ _
    rw [mkRecord]
  · intro ho
    cases ho <;>
      simp only [get_recent_detections, if_pos, if_neg, Bool.false_eq_true,
        not_false_iff, reduceIte] <;>
      exact List.sorted_insertionSort newestFirst _

/-- One row of the grouped statistics breakdown. -/
structure StatGroup where
  total : Nat
  hate_speech : Nat
  category : String
  platform : Option String
  deriving DecidableEq

/-- `DatabaseManager.get_statistics`: a single grouped scan over the
rows in the window, one output row per distinct (category, platform)
pair, with COUNT(*) and the summed hate-speech indicator. -/
def get_statistics (db : List DetectionRecord) (now : Int) (window : Int) :
    List StatGroup :=
  let recs := db.filter (fun r => decide (now - window < r.timestamp))
  let keys := (recs.map (fun r => (r.category, r.platform))).dedup
  keys.map (fun k =>
    { total := recs.countP (fun r => decide ((r.category, r.platform) = k))
      hate_speech :=
        recs.countP (fun r => decide ((r.category, r.platform) = k) && r.is_hate_speech)
      category := k.1
      platform := k.2 })

/-- Counting a disjunction of pointwise-disjoint predicates adds the
counts. -/
theorem countP_or_of_disjoint {α : Type} (p q : α → Bool) (l : List α)
    (h : ∀ x ∈ l, ¬(p x = true ∧ q x = true)) :
    l.countP (fun x => p x || q x) = l.countP p + l.countP q := by
  induction l with
  | nil => simp
  | cons a t ih =>
    have ha := h a (List.mem_cons_self a t)
    have ht : ∀ x ∈ t, ¬(p x = true ∧ q x = true) :=
      fun x hx => h x (List.mem_cons_of_mem a hx)
    simp only [List.countP_cons, ih ht]
    cases hp : p a <;> cases hq : q a <;> simp_all <;> omega

/-- Summing, over a duplicate-free key list, the number of elements
equal to each key counts exactly the elements lying in the key list. -/
theorem sum_countP_eq {K : Type} [DecidableEq K] (ks : List K) (hN : ks.Nodup)
    (l : List K) :
    (ks.map (fun k => l.countP (fun x => decide (x = k)))).sum =
      l.countP (fun x => decide (x ∈ ks)) := by
  induction ks with
  | nil => simp
  | cons k ks ih =>
    obtain ⟨hk, hN2⟩ := List.nodup_cons.mp hN
    rw [List.map_cons, List.sum_cons, ih hN2]
    rw [show (fun x => decide (x ∈ k :: ks)) =
        (fun x => decide (x = k) || decide (x ∈ ks)) by
      funext x; simp [List.mem_cons]]
    rw [countP_or_of_disjoint]
    intro x hx hboth
    simp only [decide_eq_true_eq] at hboth
    exact hk (hboth.1 ▸ hboth.2)

/-- C7: the group totals of the statistics breakdown sum to the number
of records whose timestamp lies within the window: every record in the
window is counted in exactly one (category, platform) group. -/
theorem C7_statistics (db : List DetectionRecord) (now window : Int) :
    ((get_statistics db now window).map StatGroup.total).sum =
      (db.filter (fun r => decide (now - window < r.timestamp))).length := by
  unfold get_statistics
  simp only [List.map_map]
  set recs := db.filter (fun r => decide (now - window < r.timestamp)) with hrecs
  set l := recs.map (fun r => (r.category, r.platform)) with hl
  have h1 : (StatGroup.total ∘ fun k =>
      ({ total := recs.countP (fun r => decide ((r.category, r.platform) = k)),
         hate_speech :=
           recs.countP (fun r => decide ((r.category, r.platform) = k) && r.is_hate_speech),
         category := k.1, platform := k.2 } : StatGroup)) =
      fun k => l.countP (fun x => decide (x = k)) := by
    funext k
    simp only [Function.comp]
    rw [hl, List.countP_map]
    rfl
  rw [h1, sum_countP_eq l.dedup (List.nodup_dedup l) l]
  rw [List.countP_eq_length.mpr]
  · rw [hl, List.length_map]
  · intro a ha
    simpa using List.mem_dedup.mpr ha
